import Mathlib

/-!
Shallow embedding of the goa openapi3 / i18n plugin sources:
the OpenAPI v3 document assembly in `openapi3` (NewV3, info, servers,
paths, operation, paramsFromExpr, paramFor, openapiFiles, toJSON, toYAML)
and the security-scheme DSL constructors of the i18n plugin
(BasicAuthSecurity, APIKeySecurity, OAuth2Security, JWTSecurity,
securitySchemeRedefined).  Go slices become Lean lists (a nil slice that
the code distinguishes from an empty one becomes an Option of a list),
Go maps become association lists with update-in-place-or-append
insertion, and the evaluation engine's mutable error collector becomes
an explicit state record.
-/

namespace GoaOpenapi3

/-! ### Design-graph expression types (goa.design/goa/v3/expr, as consumed) -/

/-- Mirrors expr.ContactExpr: the fields read by `contact`. -/
structure ContactExpr where
  name : String
  url : String
  email : String
deriving DecidableEq, Repr

/-- Mirrors expr.LicenseExpr: the fields read by `license`. -/
structure LicenseExpr where
  name : String
  url : String
deriving DecidableEq, Repr

/-- Mirrors expr.HostExpr: a host has a description and a list of URI templates. -/
structure HostExpr where
  description : String
  uris : List String
deriving DecidableEq, Repr

/-- Mirrors expr.ServerExpr: the `servers` function only reads `Hosts`. -/
structure ServerExpr where
  hosts : List HostExpr
deriving DecidableEq, Repr

/-- Mirrors expr.APIExpr: the fields read by `info` and `NewV3`.
`servers` is `Option` because the Go `servers` function distinguishes a
nil slice from an empty one. -/
structure APIExpr where
  title : String
  description : String
  termsOfService : String
  version : String
  contact : Option ContactExpr
  license : Option LicenseExpr
  servers : Option (List ServerExpr)
deriving DecidableEq, Repr

/-- Type tag of an attribute: `expr.IsArray` is the only type inspection
the mapping performs (in `paramFor`). -/
inductive AttrKind where
  | primitive
  | array
  | object
deriving DecidableEq, Repr

/-- Mirrors expr.AttributeExpr as consumed by `paramFor`: description and
type tag.  `meta` carries the attribute metadata tags (the i18n security
DSL attaches tags such as "security:username" through Metadata). -/
structure AttributeExpr where
  description : String
  kind : AttrKind
  meta : List String
deriving DecidableEq, Repr

/-- One step of codegen.WalkMappedAttr over a MappedAttributeExpr: the
walker yields the attribute name `n`, the mapped (wire) name `pn`, the
required flag and the attribute expression, in declaration order. -/
structure MappedEntry where
  name : String
  pname : String
  required : Bool
  attr : AttributeExpr
deriving DecidableEq, Repr

/-- Mirrors expr.RouteExpr: HTTP verb and path template. -/
structure RouteExpr where
  method : String
  path : String
deriving DecidableEq, Repr

/-- Mirrors expr.HTTPEndpointExpr as consumed: name, the endpoint
description read through the route back-reference, the Params mapped
attribute (nil-able in Go, hence Option) and the routes. -/
structure HTTPEndpointExpr where
  name : String
  description : String
  params : Option (List MappedEntry)
  routes : List RouteExpr
deriving DecidableEq, Repr

/-- Mirrors expr.HTTPServiceExpr: name and HTTP endpoints. -/
structure HTTPServiceExpr where
  name : String
  httpEndpoints : List HTTPEndpointExpr
deriving DecidableEq, Repr

/-- Mirrors expr.RootExpr as consumed: `r.API` and `r.API.HTTP.Services`
(the service list is kept directly on the root, matching every access
path the plugin uses). -/
structure RootExpr where
  api : APIExpr
  services : List HTTPServiceExpr
deriving DecidableEq, Repr

/-! ### Output document types (github.com/getkin/kin-openapi/openapi3) -/

/-- Mirrors openapi3.Contact. -/
structure Contact where
  name : String
  url : String
  email : String
deriving DecidableEq, Repr

/-- Mirrors openapi3.License. -/
structure License where
  name : String
  url : String
deriving DecidableEq, Repr

/-- Mirrors openapi3.Info. -/
structure Info where
  title : String
  description : String
  termsOfService : String
  contact : Option Contact
  license : Option License
  version : String
deriving DecidableEq, Repr

/-- Mirrors openapi3.Server: URL and description. -/
structure Server where
  url : String
  description : String
deriving DecidableEq, Repr

/-- Mirrors openapi3.Parameter as populated by `paramFor`: `paramIn`
stands for the Go field `In` (a Lean keyword). -/
structure Parameter where
  paramIn : String
  name : String
  description : String
  required : Bool
  explode : Option Bool
deriving DecidableEq, Repr

/-- Mirrors openapi3.Operation as populated by `operation`; `responses`
is always built as the empty map. -/
structure Operation where
  operationId : String
  description : String
  parameters : List Parameter
  responses : List (String × String)
deriving DecidableEq, Repr

/-- Mirrors openapi3.PathItem restricted to the per-verb operation slots
relevant here; the source code only ever writes the `get` slot. -/
structure PathItem where
  get : Option Operation := none
  post : Option Operation := none
  put : Option Operation := none
  delete : Option Operation := none
  patch : Option Operation := none
deriving DecidableEq, Repr

/-- The empty openapi3.PathItem literal created when a path is first seen. -/
def emptyPathItem : PathItem := {}

/-- Mirrors openapi3.Swagger as populated by `NewV3`.  The Go `Paths`
map becomes an association list with unique keys. -/
structure Swagger where
  openapi : String
  info : Info
  servers : Option (List Server)
  paths : List (String × PathItem)
deriving DecidableEq, Repr

/-! ### Association-list model of the Go paths map -/

/-- Lookup in the paths association list (the model of Go map indexing). -/
def lookupA : List (String × PathItem) → String → Option PathItem
  | [], _ => none
  | (k, v) :: m, p => if k = p then some v else lookupA m p

/-- Insertion in the paths association list: update in place when the key
exists, append otherwise (the model of Go map assignment). -/
def updateA : List (String × PathItem) → String → PathItem → List (String × PathItem)
  | [], k, v => [(k, v)]
  | (k', v') :: m, k, v =>
    if k' = k then (k, v) :: m else (k', v') :: updateA m k v

/-! ### The openapi3 mapping functions (src/unnamed/part_001) -/

/-- Splits a character list into the `/`-delimited segments of a path
template (structural helper for the wildcard extraction below). -/
def splitSegs : List Char → List (List Char)
  | [] => [[]]
  | c :: cs =>
    if c = '/' then [] :: splitSegs cs
    else
      match splitSegs cs with
      | [] => [[c]]
      | s :: ss => (c :: s) :: ss

/-- Recognizes a wildcard segment `\x7bname\x7d` (optionally `\x7b*name\x7d`)
and yields the wildcard name. -/
def segWildcard : List Char → Option String
  | [] => none
  | c :: rest =>
    if c = '\x7b' then
      if rest.getLast? = some '\x7d' then
        let inner := rest.dropLast
        let inner :=
          match inner with
          | '*' :: more => more
          | other => other
        some (String.mk inner)
      else none
    else none

/-- Model of goa's expr.ExtractHTTPWildcards (external library helper):
the names of the `\x7bname\x7d` segments of the path template, with an
optional leading `*` stripped. -/
def extractHTTPWildcards (path : String) : List String :=
  (splitSegs path.data).filterMap segWildcard

/-- Mirrors `paramFor`: builds the Parameter, attaching `explode = true`
exactly when the attribute type is an array. -/
def paramFor (a : AttributeExpr) (name loc : String) (required : Bool) : Parameter :=
  { paramIn := loc
    name := name
    description := a.description
    required := required
    explode := if a.kind = AttrKind.array then some true else none }

/-- Mirrors the wildcard loop inside `paramsFromExpr`: starting from
`in = "query"` and the walked required flag, the first wildcard equal to
the attribute name switches to `("path", true)` and breaks. -/
def classifyIn : List String → String → Bool → String × Bool
  | [], _, required => ("query", required)
  | w :: ws, n, required =>
    if n = w then ("path", true) else classifyIn ws n required

/-- Mirrors `paramsFromExpr`: nil params yield nil; otherwise the walker
visits each mapped attribute in declaration order and appends one
parameter per attribute. -/
def paramsFromExpr (params : Option (List MappedEntry)) (path : String) : List Parameter :=
  match params with
  | none => []
  | some entries =>
    let wildcards := extractHTTPWildcards path
    entries.foldl
      (fun res en =>
        let c := classifyIn wildcards en.name en.required
        res ++ [paramFor en.attr en.pname c.1 c.2])
      []

/-- Mirrors `operation`: operation id `service#endpoint`, the endpoint
description via the route back-reference, the classified parameters and
an empty responses map. -/
def operation (s : HTTPServiceExpr) (e : HTTPEndpointExpr) (r : RouteExpr) : Operation :=
  { operationId := s.name ++ "#" ++ e.name
    description := e.description
    parameters := paramsFromExpr e.params r.path
    responses := [] }

/-- Mirrors the body of the route loop in `paths`: fetch the existing
path item (or a fresh empty one), store the operation in its Get slot,
and write it back under the route path. -/
def insertRoute (m : List (String × PathItem))
    (s : HTTPServiceExpr) (e : HTTPEndpointExpr) (r : RouteExpr) :
    List (String × PathItem) :=
  let existing := (lookupA m r.path).getD emptyPathItem
  updateA m r.path { existing with get := some (operation s e r) }

/-- Mirrors `paths`: the triple-nested loop over services, endpoints and
routes accumulating into the paths map. -/
def paths (r : RootExpr) : List (String × PathItem) :=
  r.services.foldl
    (fun m s =>
      s.httpEndpoints.foldl
        (fun m e => e.routes.foldl (fun m rt => insertRoute m s e rt) m)
        m)
    []

/-- Mirrors `contact`: nil in, nil out. -/
def contact : Option ContactExpr → Option Contact
  | some c => some { name := c.name, url := c.url, email := c.email }
  | none => none

/-- Mirrors `license`: nil in, nil out. -/
def license : Option LicenseExpr → Option License
  | some l => some { name := l.name, url := l.url }
  | none => none

/-- Mirrors `info` (src/unnamed/part_001): version defaults to the
literal "unversioned" when the API declares the empty version. -/
def info (api : APIExpr) : Info :=
  let version := if api.version ≠ "" then api.version else "unversioned"
  { title := api.title
    description := api.description
    termsOfService := api.termsOfService
    contact := contact api.contact
    license := license api.license
    version := version }

/-- Mirrors `servers`: nil in, nil out; otherwise the nested loop over
servers, hosts and URIs appending one entry per (host, URI) pair. -/
def servers : Option (List ServerExpr) → Option (List Server)
  | none => none
  | some s =>
    some (s.foldl
      (fun acc server =>
        server.hosts.foldl
          (fun acc host =>
            host.uris.foldl
              (fun acc uri => acc ++ [{ url := uri, description := host.description }])
              acc)
          acc)
      [])

/-- Mirrors `NewV3`: assembles the Swagger value; the Go function always
returns a nil error, modelled as the always-`none` second component. -/
def NewV3 (r : RootExpr) : Swagger × Option String :=
  ({ openapi := "3.0.0"
     info := info r.api
     servers := servers r.api.servers
     paths := paths r },
   none)

/-! ### Serialization (src/openapi3/generate.go) -/

/-- Outcome of a Go function that either returns normally or panics. -/
inductive PanicOr (α : Type) where
  | panicked (msg : String)
  | ret (a : α)
deriving DecidableEq, Repr

/-- Mirrors `toJSON`: the marshaller (json.Marshal, a black-box encoder
that may fail) is passed explicitly; a marshalling error becomes a panic
with the "openapi: " prefix, success returns the bytes. -/
def toJSON (marshal : Swagger → Except String String) (d : Swagger) : PanicOr String :=
  match marshal d with
  | Except.error e => PanicOr.panicked ("openapi: " ++ e)
  | Except.ok b => PanicOr.ret b

/-- Mirrors `toYAML`: identical propagation shape over yaml.Marshal. -/
def toYAML (marshal : Swagger → Except String String) (d : Swagger) : PanicOr String :=
  match marshal d with
  | Except.error e => PanicOr.panicked ("openapi: " ++ e)
  | Except.ok b => PanicOr.ret b

/-- Canonical rendering of a JSON string literal (escaping elided: the
encoder is a black box; any fixed deterministic rendering suffices). -/
def jstr (s : String) : String := "\"" ++ s ++ "\""

/-- Canonical rendering of a JSON object from rendered fields. -/
def jobj (fields : List String) : String :=
  "\x7b" ++ String.intercalate "," fields ++ "\x7d"

/-- Canonical rendering of a JSON array from rendered elements. -/
def jarr (elems : List String) : String :=
  "[" ++ String.intercalate "," elems ++ "]"

/-- Canonical rendering of a nullable value. -/
def jopt : Option String → String
  | none => "null"
  | some s => s

/-- Canonical rendering of a boolean. -/
def jbool : Bool → String
  | true => "true"
  | false => "false"

/-- Rendering of openapi3.Contact. -/
def jsonOfContact (c : Contact) : String :=
  jobj [jstr "name" ++ ":" ++ jstr c.name, jstr "url" ++ ":" ++ jstr c.url,
        jstr "email" ++ ":" ++ jstr c.email]

/-- Rendering of openapi3.License. -/
def jsonOfLicense (l : License) : String :=
  jobj [jstr "name" ++ ":" ++ jstr l.name, jstr "url" ++ ":" ++ jstr l.url]

/-- Rendering of openapi3.Info. -/
def jsonOfInfo (i : Info) : String :=
  jobj [jstr "title" ++ ":" ++ jstr i.title,
        jstr "description" ++ ":" ++ jstr i.description,
        jstr "termsOfService" ++ ":" ++ jstr i.termsOfService,
        jstr "contact" ++ ":" ++ jopt (i.contact.map jsonOfContact),
        jstr "license" ++ ":" ++ jopt (i.license.map jsonOfLicense),
        jstr "version" ++ ":" ++ jstr i.version]

/-- Rendering of openapi3.Server. -/
def jsonOfServer (s : Server) : String :=
  jobj [jstr "url" ++ ":" ++ jstr s.url, jstr "description" ++ ":" ++ jstr s.description]

/-- Rendering of openapi3.Parameter. -/
def jsonOfParameter (p : Parameter) : String :=
  jobj [jstr "in" ++ ":" ++ jstr p.paramIn, jstr "name" ++ ":" ++ jstr p.name,
        jstr "description" ++ ":" ++ jstr p.description,
        jstr "required" ++ ":" ++ jbool p.required,
        jstr "explode" ++ ":" ++ jopt (p.explode.map jbool)]

/-- Rendering of openapi3.Operation. -/
def jsonOfOperation (o : Operation) : String :=
  jobj [jstr "operationId" ++ ":" ++ jstr o.operationId,
        jstr "description" ++ ":" ++ jstr o.description,
        jstr "parameters" ++ ":" ++ jarr (o.parameters.map jsonOfParameter),
        jstr "responses" ++ ":" ++ jobj []]

/-- Rendering of openapi3.PathItem: one field per populated verb slot. -/
def jsonOfPathItem (pi : PathItem) : String :=
  jobj [jstr "get" ++ ":" ++ jopt (pi.get.map jsonOfOperation),
        jstr "post" ++ ":" ++ jopt (pi.post.map jsonOfOperation),
        jstr "put" ++ ":" ++ jopt (pi.put.map jsonOfOperation),
        jstr "delete" ++ ":" ++ jopt (pi.delete.map jsonOfOperation),
        jstr "patch" ++ ":" ++ jopt (pi.patch.map jsonOfOperation)]

/-- Insertion into a key-sorted association list (json.Marshal serializes
Go maps with sorted keys; this realizes that canonical ordering). -/
def insertByKey (p : String × PathItem) :
    List (String × PathItem) → List (String × PathItem)
  | [] => [p]
  | q :: qs => if p.1 < q.1 then p :: q :: qs else q :: insertByKey p qs

/-- Key-sorts the paths association list, as json.Marshal does for maps. -/
def sortByKey (l : List (String × PathItem)) : List (String × PathItem) :=
  l.foldr insertByKey []

/-- Rendering of the paths map with sorted keys. -/
def jsonOfPaths (l : List (String × PathItem)) : String :=
  jobj ((sortByKey l).map fun kv => jstr kv.1 ++ ":" ++ jsonOfPathItem kv.2)

/-- Canonical model of json.Marshal on the assembled document: a fixed,
deterministic, total rendering (these document values always serialize). -/
def jsonOfSwagger (d : Swagger) : String :=
  jobj [jstr "openapi" ++ ":" ++ jstr d.openapi,
        jstr "info" ++ ":" ++ jsonOfInfo d.info,
        jstr "servers" ++ ":" ++ jopt (d.servers.map fun ss => jarr (ss.map jsonOfServer)),
        jstr "paths" ++ ":" ++ jsonOfPaths d.paths]

/-- Canonical model of the black-box yaml.Marshal encoder on the
assembled document: a distinct fixed deterministic rendering. -/
def yamlOfSwagger (d : Swagger) : String :=
  "---\n" ++ jsonOfSwagger d

/-- Mirrors a codegen.File: output path and rendered section content. -/
structure CodegenFile where
  path : String
  content : String
deriving DecidableEq, Repr

/-- Mirrors `openapiFiles` (src/openapi3/generate.go): no files and no
error when there are no HTTP services; otherwise the spec from NewV3 is
rendered into the two files under gen/http.  The section templates
applied to the total canonical encoders render the marshalled bytes. -/
def openapiFiles (r : RootExpr) :
    Option CodegenFile × Option CodegenFile × Option String :=
  if r.services.length = 0 then (none, none, none)
  else
    let se := NewV3 r
    match se.2 with
    | some err => (none, none, some err)
    | none =>
      (some { path := "gen/http/openapi.json", content := jsonOfSwagger se.1 },
       some { path := "gen/http/openapi.yaml", content := yamlOfSwagger se.1 },
       none)

/-! ### Security scheme DSL (src/i18n/README.MD embedded source) -/

/-- Mirrors design.SchemeKind as used by the four scheme constructors. -/
inductive SchemeKind where
  | basicAuth
  | apiKey
  | oauth2
  | jwt
deriving DecidableEq, Repr

/-- Mirrors design.SchemeExpr as built by the constructors: kind and name
(the optional builder DSL only fills description/scopes/flows on the
expression and never touches the registry, so it is elided here). -/
structure SchemeExpr where
  kind : SchemeKind
  schemeName : String
deriving DecidableEq, Repr

/-- Evaluation-engine state visible to the scheme constructors: the
global scheme registry design.Root.Schemes, the eval.ReportError
accumulator, and whether eval.Current() is the top-level expression. -/
structure EvalState where
  schemes : List SchemeExpr
  errors : List String
  atTop : Bool
deriving DecidableEq, Repr

/-- Mirrors eval.IncompatibleDSL: reports a context error. -/
def incompatibleDSL (st : EvalState) : EvalState :=
  { st with errors := st.errors ++ ["invalid use of DSL in this context"] }

/-- Mirrors `securitySchemeRedefined`: scans the registry for the name,
reporting the redefinition error on a hit. -/
def securitySchemeRedefined (st : EvalState) (name : String) : Bool × EvalState :=
  if st.schemes.any (fun s => s.schemeName = name) then
    (true,
     { st with errors :=
        st.errors ++ ["cannot redefine security scheme with name \"" ++ name ++ "\""] })
  else
    (false, st)

/-- Mirrors `BasicAuthSecurity`: top-level check, duplicate check, then
append the new scheme to the registry. -/
def BasicAuthSecurity (st : EvalState) (name : String) :
    Option SchemeExpr × EvalState :=
  if ¬ st.atTop then (none, incompatibleDSL st)
  else
    let rd := securitySchemeRedefined st name
    if rd.1 then (none, rd.2)
    else
      let e : SchemeExpr := { kind := SchemeKind.basicAuth, schemeName := name }
      (some e, { rd.2 with schemes := rd.2.schemes ++ [e] })

/-- Mirrors `APIKeySecurity`: same shape with kind APIKeyKind. -/
def APIKeySecurity (st : EvalState) (name : String) :
    Option SchemeExpr × EvalState :=
  if ¬ st.atTop then (none, incompatibleDSL st)
  else
    let rd := securitySchemeRedefined st name
    if rd.1 then (none, rd.2)
    else
      let e : SchemeExpr := { kind := SchemeKind.apiKey, schemeName := name }
      (some e, { rd.2 with schemes := rd.2.schemes ++ [e] })

/-- Mirrors `OAuth2Security`: same shape with kind OAuth2Kind. -/
def OAuth2Security (st : EvalState) (name : String) :
    Option SchemeExpr × EvalState :=
  if ¬ st.atTop then (none, incompatibleDSL st)
  else
    let rd := securitySchemeRedefined st name
    if rd.1 then (none, rd.2)
    else
      let e : SchemeExpr := { kind := SchemeKind.oauth2, schemeName := name }
      (some e, { rd.2 with schemes := rd.2.schemes ++ [e] })

/-- Mirrors `JWTSecurity`: same shape with kind JWTKind. -/
def JWTSecurity (st : EvalState) (name : String) :
    Option SchemeExpr × EvalState :=
  if ¬ st.atTop then (none, incompatibleDSL st)
  else
    let rd := securitySchemeRedefined st name
    if rd.1 then (none, rd.2)
    else
      let e : SchemeExpr := { kind := SchemeKind.jwt, schemeName := name }
      (some e, { rd.2 with schemes := rd.2.schemes ++ [e] })

/-- Security-role tags attached by the i18n DSL attribute helpers
(Username, Password, APIKey, AccessToken, Token): a tag is a security
role when it is one of the four fixed tags or an apikey-scheme tag. -/
def isSecurityRoleTag (t : String) : Bool :=
  t = "security:username" || t = "security:password" ||
  t.startsWith "security:apikey:" || t = "security:accesstoken" ||
  t = "security:token"

/-- An attribute is security-role-tagged when its metadata carries a
security-role tag. -/
def hasSecurityRole (a : AttributeExpr) : Bool :=
  a.meta.any isSecurityRoleTag

/-! ### Specification-side definitions -/

/-- Specification-side reading of the servers expansion: one output
entry per (host, URI) pair by cross-product, in declaration order
(servers outer, then hosts, then URIs). -/
def serversSpec (s : List ServerExpr) : List Server :=
  s.flatMap fun server =>
    server.hosts.flatMap fun host =>
      host.uris.map fun uri => { url := uri, description := host.description }

/-- Specification-side predicate: the design graph has no service that
exposes at least one route. -/
def noExposedRoutes (r : RootExpr) : Bool :=
  r.services.all fun s => s.httpEndpoints.all fun e => e.routes.isEmpty

/-- The last (service, endpoint, route) triple whose route path equals
`p`, in processing order of the `paths` loops. -/
def lastMatch (p : String) :
    List (HTTPServiceExpr × HTTPEndpointExpr × RouteExpr) →
    Option (HTTPServiceExpr × HTTPEndpointExpr × RouteExpr)
  | [] => none
  | t :: ts =>
    match lastMatch p ts with
    | some t' => some t'
    | none => if t.2.2.path = p then some t else none

/-- The (service, endpoint, route) triples visited by the `paths`
triple-nested loop, flattened in visiting order. -/
def flatRoutes (r : RootExpr) :
    List (HTTPServiceExpr × HTTPEndpointExpr × RouteExpr) :=
  r.services.flatMap fun s =>
    s.httpEndpoints.flatMap fun e => e.routes.map fun rt => (s, e, rt)

/-- Rewrites every route verb of the design graph through `f`, leaving
everything else unchanged (used to state verb-independence). -/
def updateVerbs (f : String → String) (r : RootExpr) : RootExpr :=
  { r with services := r.services.map fun s =>
      { s with httpEndpoints := s.httpEndpoints.map fun e =>
          { e with routes := e.routes.map fun rt => { rt with method := f rt.method } } } }

/-- Fixed total model of json.Marshal on the assembled document. -/
def jsonMarshal (d : Swagger) : Except String String :=
  Except.ok (jsonOfSwagger d)

/-- Fixed total model of yaml.Marshal on the assembled document. -/
def yamlMarshal (d : Swagger) : Except String String :=
  Except.ok (yamlOfSwagger d)

/-! ### Concrete fixtures for witnesses and counterexamples -/

/-- Default parameter value used only by positional `getD` reads. -/
def defaultParam : Parameter :=
  { paramIn := "", name := "", description := "", required := false, explode := none }

/-- Default mapped-attribute entry used only by positional `getD` reads. -/
def defaultEntry : MappedEntry :=
  { name := "", pname := "", required := false,
    attr := { description := "", kind := AttrKind.primitive, meta := [] } }

/-- A plain attribute with no security metadata. -/
def plainAttr : AttributeExpr :=
  { description := "an id", kind := AttrKind.primitive, meta := [] }

/-- The required attribute `x` of the calc#add scenario. -/
def entryX : MappedEntry :=
  { name := "x", pname := "x", required := true, attr := plainAttr }

/-- The optional attribute `y` of the calc#add scenario. -/
def entryY : MappedEntry :=
  { name := "y", pname := "y", required := false, attr := plainAttr }

/-- The /add/\x7bx\x7d path template of the calc#add scenario. -/
def fixturePath : String := "/add/\x7bx\x7d"

/-- A payload attribute carrying the i18n username security role. -/
def taggedEntry : MappedEntry :=
  { name := "user", pname := "user", required := false,
    attr := { description := "", kind := AttrKind.primitive,
              meta := ["security:username"] } }

/-- An API node declaring version "1.0". -/
def sampleAPI : APIExpr :=
  { title := "test api", description := "", termsOfService := "",
    version := "1.0", contact := none, license := none, servers := none }

/-- An API node declaring no version. -/
def unversionedAPI : APIExpr := { sampleAPI with version := "" }

/-- Endpoint `add` routed at GET /same. -/
def epAdd : HTTPEndpointExpr :=
  { name := "add", description := "adds", params := some [entryX, entryY],
    routes := [{ method := "GET", path := "/same" }] }

/-- Endpoint `sub`, also routed at GET /same. -/
def epSub : HTTPEndpointExpr :=
  { name := "sub", description := "subtracts", params := none,
    routes := [{ method := "GET", path := "/same" }] }

/-- Service with two endpoints both routed at GET /same. -/
def conflictSvc : HTTPServiceExpr :=
  { name := "calc", httpEndpoints := [epAdd, epSub] }

/-- Design graph in which two methods map to the same (path, verb). -/
def conflictRoot : RootExpr := { api := sampleAPI, services := [conflictSvc] }

/-- Design graph with no HTTP services at all. -/
def emptyRoot : RootExpr := { api := sampleAPI, services := [] }

/-- A service with no endpoints, hence no routes. -/
def routelessSvc : HTTPServiceExpr := { name := "idle", httpEndpoints := [] }

/-- Design graph whose single service exposes no route. -/
def routelessRoot : RootExpr := { api := sampleAPI, services := [routelessSvc] }

/-- A sample assembled document. -/
def sampleDoc : Swagger := (NewV3 emptyRoot).1

/-- A marshaller that always fails, exercising the panic path. -/
def failMarshal : Swagger → Except String String := fun _ => Except.error "boom"

/-- An evaluation state whose registry already holds a scheme named "sec". -/
def dupState : EvalState :=
  { schemes := [{ kind := SchemeKind.basicAuth, schemeName := "sec" }],
    errors := [], atTop := true }

/-! ## Helper lemmas -/

theorem foldl_append_map {α β : Type} (g : α → β) (l : List α) (acc : List β) :
    l.foldl (fun a x => a ++ [g x]) acc = acc ++ l.map g := by
  induction l generalizing acc with
  | nil => simp
  | cons x xs ih => simp [List.foldl_cons, ih]

theorem foldl_append_flat {α β : Type} (f : α → List β) (l : List α) (acc : List β) :
    l.foldl (fun a x => a ++ f x) acc = acc ++ l.flatMap f := by
  induction l generalizing acc with
  | nil => simp
  | cons x xs ih => simp [List.foldl_cons, ih]

/-! ## Claim theorems -/

/-- C6: the info block's version equals the API's declared version when
non-empty, and the literal "unversioned" when the API declares none. -/
theorem info_version_policy (api : APIExpr) :
    (api.version ≠ "" → (info api).version = api.version) ∧
    (api.version = "" → (info api).version = "unversioned") := by
  constructor <;> intro h <;> simp [info, h]

/-- Witness for C6 at two concrete API nodes. -/
theorem info_version_policy_witness :
    (info sampleAPI).version = sampleAPI.version ∧
    (info unversionedAPI).version = "unversioned" :=
  ⟨(info_version_policy sampleAPI).1 (by decide),
   (info_version_policy unversionedAPI).2 rfl⟩

theorem hosts_fold_eq (hosts : List HostExpr) (acc : List Server) :
    hosts.foldl
      (fun acc host =>
        host.uris.foldl
          (fun acc uri =>
            acc ++ [{ url := uri, description := host.description : Server }])
          acc)
      acc
    = acc ++ hosts.flatMap fun host =>
        host.uris.map fun uri =>
          { url := uri, description := host.description : Server } := by
  simp only [foldl_append_map]
  exact foldl_append_flat _ hosts acc

theorem servers_fold_eq (s : List ServerExpr) (acc : List Server) :
    s.foldl
      (fun acc server =>
        server.hosts.foldl
          (fun acc host =>
            host.uris.foldl
              (fun acc uri =>
                acc ++ [{ url := uri, description := host.description : Server }])
              acc)
          acc)
      acc
    = acc ++ serversSpec s := by
  simp only [hosts_fold_eq, serversSpec]
  exact foldl_append_flat _ s acc

/-- C7: the servers list is exactly the cross-product of each server's
hosts with each host's URI list, one entry per (host, URI) pair, in
declaration order (servers outer, then hosts, then URIs). -/
theorem servers_cross_product (s : List ServerExpr) :
    servers (some s) = some (serversSpec s) := by
  show some _ = some _
  rw [servers_fold_eq s []]
  simp

/-- C9: a failure of the low-level JSON or YAML encoder surfaces as a
panic carrying the "openapi: " prefix, never as a returned error value;
on success the serialization helpers return the marshalled string. -/
theorem serialization_failure_panics (marshal : Swagger → Except String String)
    (d : Swagger) :
    (∀ e, marshal d = Except.error e →
        toJSON marshal d = PanicOr.panicked ("openapi: " ++ e) ∧
        toYAML marshal d = PanicOr.panicked ("openapi: " ++ e)) ∧
    (∀ b, marshal d = Except.ok b →
        toJSON marshal d = PanicOr.ret b ∧
        toYAML marshal d = PanicOr.ret b) := by
  constructor <;> intro x h <;> exact ⟨by simp [toJSON, h], by simp [toYAML, h]⟩

/-- Witness for C9: a failing marshaller panics on the sample document. -/
theorem serialization_failure_panics_witness :
    toJSON failMarshal sampleDoc = PanicOr.panicked ("openapi: " ++ "boom") ∧
    toYAML failMarshal sampleDoc = PanicOr.panicked ("openapi: " ++ "boom") :=
  (serialization_failure_panics failMarshal sampleDoc).1 "boom" rfl

/-- C8: at top level, defining a second security scheme under an
already-registered name fails for each of the four kinds: it returns no
scheme, appends the duplicate-name error, and leaves the scheme registry
unchanged. -/
theorem securityScheme_duplicate_rejected (st : EvalState) (name : String)
    (htop : st.atTop = true)
    (hdup : st.schemes.any (fun s => s.schemeName = name) = true) :
    BasicAuthSecurity st name =
      (none, { st with errors := st.errors ++
        ["cannot redefine security scheme with name \"" ++ name ++ "\""] }) ∧
    APIKeySecurity st name =
      (none, { st with errors := st.errors ++
        ["cannot redefine security scheme with name \"" ++ name ++ "\""] }) ∧
    OAuth2Security st name =
      (none, { st with errors := st.errors ++
        ["cannot redefine security scheme with name \"" ++ name ++ "\""] }) ∧
    JWTSecurity st name =
      (none, { st with errors := st.errors ++
        ["cannot redefine security scheme with name \"" ++ name ++ "\""] }) := by
  refine ⟨?_, ?_, ?_, ?_⟩ <;>
    simp [BasicAuthSecurity, APIKeySecurity, OAuth2Security, JWTSecurity,
      securitySchemeRedefined, htop, hdup]

/-- Witness for C8 at a concrete registry already holding "sec". -/
theorem securityScheme_duplicate_rejected_witness :
    BasicAuthSecurity dupState "sec" =
      (none, { dupState with errors := dupState.errors ++
        ["cannot redefine security scheme with name \"" ++ "sec" ++ "\""] }) ∧
    APIKeySecurity dupState "sec" =
      (none, { dupState with errors := dupState.errors ++
        ["cannot redefine security scheme with name \"" ++ "sec" ++ "\""] }) ∧
    OAuth2Security dupState "sec" =
      (none, { dupState with errors := dupState.errors ++
        ["cannot redefine security scheme with name \"" ++ "sec" ++ "\""] }) ∧
    JWTSecurity dupState "sec" =
      (none, { dupState with errors := dupState.errors ++
        ["cannot redefine security scheme with name \"" ++ "sec" ++ "\""] }) :=
  securityScheme_duplicate_rejected dupState "sec" rfl rfl

theorem classifyIn_eq (ws : List String) (n : String) (req : Bool) :
    classifyIn ws n req = if n ∈ ws then ("path", true) else ("query", req) := by
  induction ws with
  | nil => simp [classifyIn]
  | cons w ws ih =>
    by_cases h : n = w
    · simp [classifyIn, h]
    · simp [classifyIn, h, ih]

theorem paramsFromExpr_eq_map (l : List MappedEntry) (path : String) :
    paramsFromExpr (some l) path =
      l.map fun en =>
        paramFor en.attr en.pname
          (classifyIn (extractHTTPWildcards path) en.name en.required).1
          (classifyIn (extractHTTPWildcards path) en.name en.required).2 := by
  have h := foldl_append_map
    (fun en : MappedEntry =>
      paramFor en.attr en.pname
        (classifyIn (extractHTTPWildcards path) en.name en.required).1
        (classifyIn (extractHTTPWildcards path) en.name en.required).2) l []
  simpa [paramsFromExpr] using h

theorem getD_map_of_lt {α β : Type} (f : α → β) (l : List α) (i : Nat)
    (h : i < l.length) (d : β) (d' : α) :
    (l.map f).getD i d = f (l.getD i d') := by
  induction l generalizing i with
  | nil => exact absurd h (by simp)
  | cons x xs ih =>
    cases i with
    | zero => rfl
    | succ n =>
      simpa [List.getD] using ih n (Nat.lt_of_succ_lt_succ (by simpa using h))

/-- C1: attributes are classified in declaration order; an attribute
whose name matches a path wildcard yields an in="path" parameter with
required forced to true, every other attribute yields an in="query"
parameter carrying its own required flag. -/
theorem paramsFromExpr_classifies (l : List MappedEntry) (path : String)
    (i : Nat) (h : i < l.length) :
    (paramsFromExpr (some l) path).length = l.length ∧
    ((paramsFromExpr (some l) path).getD i defaultParam).name =
      (l.getD i defaultEntry).pname ∧
    (if (l.getD i defaultEntry).name ∈ extractHTTPWildcards path then
      ((paramsFromExpr (some l) path).getD i defaultParam).paramIn = "path" ∧
      ((paramsFromExpr (some l) path).getD i defaultParam).required = true
    else
      ((paramsFromExpr (some l) path).getD i defaultParam).paramIn = "query" ∧
      ((paramsFromExpr (some l) path).getD i defaultParam).required =
        (l.getD i defaultEntry).required) := by
  rw [paramsFromExpr_eq_map]
  rw [getD_map_of_lt _ l i h defaultParam defaultEntry]
  refine ⟨by simp, rfl, ?_⟩
  rw [classifyIn_eq]
  by_cases hm : (l.getD i defaultEntry).name ∈ extractHTTPWildcards path
  · rw [if_pos hm, if_pos hm]
    exact ⟨rfl, rfl⟩
  · rw [if_neg hm, if_neg hm]
    exact ⟨rfl, rfl⟩

/-- Witness for C1: for path /add/\x7bx\x7d, attribute x (index 0) is a
required path parameter and attribute y (index 1) keeps its own flag as
a query parameter. -/
theorem paramsFromExpr_classifies_witness :
    (0 < 2 ∧
      ((paramsFromExpr (some [entryX, entryY]) fixturePath).length = 2 ∧
      ((paramsFromExpr (some [entryX, entryY]) fixturePath).getD 0 defaultParam).name =
        ([entryX, entryY].getD 0 defaultEntry).pname ∧
      (if ([entryX, entryY].getD 0 defaultEntry).name ∈ extractHTTPWildcards fixturePath then
        ((paramsFromExpr (some [entryX, entryY]) fixturePath).getD 0 defaultParam).paramIn = "path" ∧
        ((paramsFromExpr (some [entryX, entryY]) fixturePath).getD 0 defaultParam).required = true
      else
        ((paramsFromExpr (some [entryX, entryY]) fixturePath).getD 0 defaultParam).paramIn = "query" ∧
        ((paramsFromExpr (some [entryX, entryY]) fixturePath).getD 0 defaultParam).required =
          ([entryX, entryY].getD 0 defaultEntry).required))) ∧
    (1 < 2 ∧
      ((paramsFromExpr (some [entryX, entryY]) fixturePath).length = 2 ∧
      ((paramsFromExpr (some [entryX, entryY]) fixturePath).getD 1 defaultParam).name =
        ([entryX, entryY].getD 1 defaultEntry).pname ∧
      (if ([entryX, entryY].getD 1 defaultEntry).name ∈ extractHTTPWildcards fixturePath then
        ((paramsFromExpr (some [entryX, entryY]) fixturePath).getD 1 defaultParam).paramIn = "path" ∧
        ((paramsFromExpr (some [entryX, entryY]) fixturePath).getD 1 defaultParam).required = true
      else
        ((paramsFromExpr (some [entryX, entryY]) fixturePath).getD 1 defaultParam).paramIn = "query" ∧
        ((paramsFromExpr (some [entryX, entryY]) fixturePath).getD 1 defaultParam).required =
          ([entryX, entryY].getD 1 defaultEntry).required))) :=
  ⟨⟨by decide, paramsFromExpr_classifies [entryX, entryY] fixturePath 0 (by decide)⟩,
   ⟨by decide, paramsFromExpr_classifies [entryX, entryY] fixturePath 1 (by decide)⟩⟩

/-- C3 counterexample: an attribute tagged with the username security
role is not excluded by the classifier: it is emitted as an ordinary
query parameter under its own name. -/
theorem securityRole_not_excluded_counterexample :
    hasSecurityRole taggedEntry.attr = true ∧
    (paramsFromExpr (some [taggedEntry]) "/login").map Parameter.name = ["user"] ∧
    ((paramsFromExpr (some [taggedEntry]) "/login").getD 0 defaultParam).paramIn
      = "query" := by
  refine ⟨rfl, rfl, rfl⟩

/-- C3 amended: the classifier performs no security-role filtering at
all; every walked attribute, tagged or not, contributes exactly one
parameter, and the output names are exactly the mapped attribute names
in declaration order. -/
theorem paramsFromExpr_no_security_filter (l : List MappedEntry) (path : String) :
    (paramsFromExpr (some l) path).map Parameter.name = l.map MappedEntry.pname := by
  rw [paramsFromExpr_eq_map]
  simp [paramFor]

theorem lookupA_updateA_self (m : List (String × PathItem)) (k : String)
    (v : PathItem) : lookupA (updateA m k v) k = some v := by
  induction m with
  | nil => simp [updateA, lookupA]
  | cons kv m ih =>
    obtain ⟨k', v'⟩ := kv
    by_cases h : k' = k
    · simp [updateA, lookupA, h]
    · simp [updateA, lookupA, h, ih]

theorem lookupA_updateA_ne (m : List (String × PathItem)) (k : String)
    (v : PathItem) (p : String) (h : k ≠ p) :
    lookupA (updateA m k v) p = lookupA m p := by
  induction m with
  | nil => simp [updateA, lookupA, h]
  | cons kv m ih =>
    obtain ⟨k', v'⟩ := kv
    by_cases h2 : k' = k
    · subst h2
      simp [updateA, lookupA, h]
    · by_cases h3 : k' = p <;> simp [updateA, lookupA, h2, h3, ih, Ne.symm h]

theorem lookupA_routesFold
    (ts : List (HTTPServiceExpr × HTTPEndpointExpr × RouteExpr)) :
    ∀ (m : List (String × PathItem)) (p : String),
      lookupA (ts.foldl (fun m t => insertRoute m t.1 t.2.1 t.2.2) m) p =
        match lastMatch p ts with
        | none => lookupA m p
        | some t =>
          some { (lookupA m p).getD emptyPathItem with
                 get := some (operation t.1 t.2.1 t.2.2) } := by
  induction ts with
  | nil => intro m p; rfl
  | cons t ts ih =>
    intro m p
    rw [List.foldl_cons, ih]
    by_cases hp : t.2.2.path = p
    · have h1 : lookupA (insertRoute m t.1 t.2.1 t.2.2) p =
          some { (lookupA m p).getD emptyPathItem with
                 get := some (operation t.1 t.2.1 t.2.2) } := by
        simp only [insertRoute]
        rw [← hp]
        exact lookupA_updateA_self m t.2.2.path _
      cases hL : lastMatch p ts with
      | none => simp [lastMatch, hL, hp, h1]
      | some t' => simp [lastMatch, hL, h1]
    · have h1 : lookupA (insertRoute m t.1 t.2.1 t.2.2) p = lookupA m p := by
        simp only [insertRoute]
        exact lookupA_updateA_ne m t.2.2.path _ p hp
      cases hL : lastMatch p ts with
      | none => simp [lastMatch, hL, hp, h1]
      | some t' => simp [lastMatch, hL, h1]

theorem endpoints_fold_eq (s : HTTPServiceExpr) (eps : List HTTPEndpointExpr)
    (m : List (String × PathItem)) :
    eps.foldl (fun m e => e.routes.foldl (fun m rt => insertRoute m s e rt) m) m =
      (eps.flatMap fun e => e.routes.map fun rt => (s, e, rt)).foldl
        (fun m t => insertRoute m t.1 t.2.1 t.2.2) m := by
  induction eps generalizing m with
  | nil => rfl
  | cons e eps ih =>
    simp only [List.foldl_cons, List.flatMap_cons, List.foldl_append, List.foldl_map]
    rw [ih]

theorem paths_eq_flat (r : RootExpr) :
    paths r =
      (flatRoutes r).foldl (fun m t => insertRoute m t.1 t.2.1 t.2.2) [] := by
  show (r.services.foldl _ []) = _
  simp only [flatRoutes]
  generalize ([] : List (String × PathItem)) = m
  induction r.services generalizing m with
  | nil => rfl
  | cons s svcs ih =>
    simp only [List.foldl_cons, List.flatMap_cons, List.foldl_append]
    rw [endpoints_fold_eq, ih]

theorem lookupA_paths (r : RootExpr) (p : String) :
    lookupA (paths r) p =
      (lastMatch p (flatRoutes r)).map fun t =>
        { emptyPathItem with get := some (operation t.1 t.2.1 t.2.2) } := by
  rw [paths_eq_flat, lookupA_routesFold]
  cases lastMatch p (flatRoutes r) <;> simp [lookupA]

/-- C10: every operation is stored in the GET slot of its path item,
whatever the route's verb is: rewriting all verbs leaves the paths map
unchanged, and the path item found at any path is the empty item with
only its GET slot filled by the operation of the last route processed
for that path (so a later route to the same path replaces the earlier
operation). -/
theorem paths_get_slot_verb_blind (r : RootExpr) (f : String → String)
    (p : String) :
    paths (updateVerbs f r) = paths r ∧
    lookupA (paths r) p =
      (lastMatch p (flatRoutes r)).map fun t =>
        { emptyPathItem with get := some (operation t.1 t.2.1 t.2.2) } := by
  constructor
  · simp only [paths, updateVerbs, List.foldl_map]
    rfl
  · exact lookupA_paths r p

/-- C2 counterexample: with two methods both routed at GET /same, NewV3
returns a nil error and a document whose paths map contains /same, and
openapiFiles emits files with a nil error: assembly does not fail. -/
theorem conflicting_route_counterexample :
    (NewV3 conflictRoot).2 = none ∧
    (openapiFiles conflictRoot).2.2 = none ∧
    (lookupA (NewV3 conflictRoot).1.paths "/same").isSome = true := by
  refine ⟨rfl, rfl, rfl⟩

/-- C2 amended: routes mapping to the same (path, verb) pair never raise
an error; NewV3 always returns a nil error, and the path item at a path
holds the operation of the last route processed for that path in its GET
slot — the later registration silently replaces the earlier one, and no
per-verb merging occurs. -/
theorem NewV3_no_conflict_error (r : RootExpr) (p : String)
    (t : HTTPServiceExpr × HTTPEndpointExpr × RouteExpr)
    (h : lastMatch p (flatRoutes r) = some t) :
    (NewV3 r).2 = none ∧
    lookupA (NewV3 r).1.paths p =
      some { emptyPathItem with get := some (operation t.1 t.2.1 t.2.2) } := by
  refine ⟨rfl, ?_⟩
  show lookupA (paths r) p = _
  rw [lookupA_paths, h]
  rfl

/-- Witness for C2 at the concrete graph with two methods on GET /same:
the last route processed wins the GET slot and no error is returned. -/
theorem NewV3_no_conflict_error_witness :
    lastMatch "/same" (flatRoutes conflictRoot) =
      some (conflictSvc, epSub, { method := "GET", path := "/same" }) ∧
    ((NewV3 conflictRoot).2 = none ∧
     lookupA (NewV3 conflictRoot).1.paths "/same" =
       some { emptyPathItem with
              get := some (operation conflictSvc epSub
                { method := "GET", path := "/same" }) }) :=
  ⟨rfl, NewV3_no_conflict_error conflictRoot "/same" _ rfl⟩

/-- C4 counterexample: a graph whose only service exposes no route still
produces both output files (the generation guard only checks that the
HTTP service list is non-empty). -/
theorem zero_route_service_still_generates :
    noExposedRoutes routelessRoot = true ∧
    (openapiFiles routelessRoot).1.isSome = true ∧
    ((openapiFiles routelessRoot).2.1).isSome = true := by
  refine ⟨rfl, rfl, rfl⟩

/-- C4 amended: no document and no error are produced exactly when the
design graph has zero HTTP services; any graph with at least one HTTP
service (even one exposing no route) yields both files and a nil error. -/
theorem openapiFiles_empty_services (r : RootExpr) :
    (r.services = [] → openapiFiles r = (none, none, none)) ∧
    (r.services ≠ [] →
      (openapiFiles r).1.isSome = true ∧
      ((openapiFiles r).2.1).isSome = true ∧
      (openapiFiles r).2.2 = none) := by
  constructor
  · intro h
    simp [openapiFiles, h]
  · intro h
    have hl : ¬ r.services.length = 0 := by simpa using h
    simp [openapiFiles, hl, NewV3]

/-- Witness for C4 at the concrete empty and routeless graphs. -/
theorem openapiFiles_empty_services_witness :
    openapiFiles emptyRoot = (none, none, none) ∧
    ((openapiFiles routelessRoot).1.isSome = true ∧
     ((openapiFiles routelessRoot).2.1).isSome = true ∧
     (openapiFiles routelessRoot).2.2 = none) :=
  ⟨(openapiFiles_empty_services emptyRoot).1 rfl,
   (openapiFiles_empty_services routelessRoot).2 (by decide)⟩

/-- C5: document assembly and serialization are pure functions of the
design graph: running NewV3 and the marshalling helpers twice on equal
inputs yields identical documents and byte-identical output. -/
theorem assemble_deterministic (r₁ r₂ : RootExpr) (h : r₁ = r₂) :
    NewV3 r₁ = NewV3 r₂ ∧
    toJSON jsonMarshal (NewV3 r₁).1 = toJSON jsonMarshal (NewV3 r₂).1 ∧
    toYAML yamlMarshal (NewV3 r₁).1 = toYAML yamlMarshal (NewV3 r₂).1 := by
  subst h
  exact ⟨rfl, rfl, rfl⟩

/-- Witness for C5 at a concrete design graph. -/
theorem assemble_deterministic_witness :
    NewV3 conflictRoot = NewV3 conflictRoot ∧
    toJSON jsonMarshal (NewV3 conflictRoot).1 =
      toJSON jsonMarshal (NewV3 conflictRoot).1 ∧
    toYAML yamlMarshal (NewV3 conflictRoot).1 =
      toYAML yamlMarshal (NewV3 conflictRoot).1 :=
  assemble_deterministic conflictRoot conflictRoot rfl

end GoaOpenapi3
